import Mathlib

set_option autoImplicit false

namespace ChatbotDataCatalog

/-
Shallow embedding of the tool-call orchestration layer (src/app.py) and the
read-only PostgreSQL query gateway (src/mcp_postgres_server.py).

Python strings are modelled as Lean `String` on the app side and as `List Char`
on the gateway side (where character-level splitting matters); Python dicts
used as insertion-ordered maps are modelled as association lists; external
effects (the MCP session call, the database) are oracle parameters; Python
exceptions are modelled with `Except`.
-/

/-- A registered tool as stored in `mcp_tools[connection.name]` by
`on_mcp_connect` in app.py: the dict with keys `name`, `description`,
`input_schema` (the schema is irrelevant to dispatch and kept abstract). -/
structure ToolInfo where
  name : String
  description : String
  deriving DecidableEq

/-- Python dict assignment `d[k] = v` on an insertion-ordered dict: update in
place if the key exists, otherwise append at the end. -/
def dictSet {β : Type} (k : String) (v : β) : List (String × β) → List (String × β)
  | [] => [(k, v)]
  | (k0, v0) :: rest => if k0 = k then (k, v) :: rest else (k0, v0) :: dictSet k v rest

/-- Python `if k in d: del d[k]`: remove the entry for `k` if present, else no-op. -/
def dictDrop {β : Type} (k : String) : List (String × β) → List (String × β)
  | [] => []
  | (k0, v0) :: rest => if k0 = k then rest else (k0, v0) :: dictDrop k rest

/-- The keys of a dict modelled as an association list. -/
def dictKeys {β : Type} (d : List (String × β)) : List String :=
  d.map Prod.fst

/-- Python dict assignment `d[k] = session` where only the key set matters
(the `mcp_sessions` map): keep position if present, else append. -/
def keySet (k : String) (l : List String) : List String :=
  if k ∈ l then l else l ++ [k]

/-- The module-level orchestration state of app.py: the global `mcp_tools`
and `mcp_sessions` dicts plus the per-user `mcp_tools` copy kept in
`cl.user_session`. Sessions are abstract, so `mcp_sessions` is its key set. -/
structure AppState where
  mcpTools : List (String × List ToolInfo)
  mcpSessions : List String
  userMcpTools : List (String × List ToolInfo)
  deriving DecidableEq

/-- The state update of `on_mcp_connect` (app.py) on the success path, after
`session.list_tools()` returned `tools`: store the tools and the session under
the connection name in the global dicts and in the user-session copy. -/
def onMcpConnect (name : String) (tools : List ToolInfo) (s : AppState) : AppState :=
  { mcpTools := dictSet name tools s.mcpTools
    mcpSessions := keySet name s.mcpSessions
    userMcpTools := dictSet name tools s.userMcpTools }

/-- The state update of `on_mcp_disconnect` (app.py): delete the connection
name from `mcp_tools`, `mcp_sessions` and the user-session copy, each guarded
by a membership test. -/
def onMcpDisconnect (name : String) (s : AppState) : AppState :=
  { mcpTools := dictDrop name s.mcpTools
    mcpSessions := s.mcpSessions.erase name
    userMcpTools := dictDrop name s.userMcpTools }

/-- `find_mcp_for_tool` (app.py): scan the `mcp_tools` dict in insertion
order and return the first connection name whose tool list contains a tool
with the given name; `None` if no connection provides it. -/
def findMcpForTool (tools : List (String × List ToolInfo)) (toolName : String) : Option String :=
  match tools with
  | [] => none
  | (mcpName, ts) :: rest =>
    if ts.any (fun t => t.name == toolName) then some mcpName
    else findMcpForTool rest toolName

/-- `call_mcp_tool` (app.py). The argument payload type is abstract (`α`,
the already-parsed JSON arguments). `sessionCall mcp tool args` is the oracle
for `session.call_tool(tool_name, tool_input)`: `.ok` carries the list of
text contents of the result, `.error` a raised exception's message. A raised
`ValueError` for a missing provider or session is modelled as `.error` with
the exact message string from the source. -/
def callMcpTool {α : Type} (tools : List (String × List ToolInfo)) (sessions : List String)
    (sessionCall : String → String → α → Except String (List String))
    (toolName : String) (toolInput : α) : Except String String :=
  match findMcpForTool tools toolName with
  | none => .error ("No MCP connection found for tool: " ++ toolName)
  | some mcpName =>
    if mcpName ∈ sessions then
      match sessionCall mcpName toolName toolInput with
      | .ok contents => .ok (contents.headD "Tool executed, but returned no content.")
      | .error e => .error e
    else
      .error ("No active session for MCP connection: " ++ mcpName)

/-- One `tool_call` entry of the model response: `{id, function.name,
function.arguments}` with arguments already parsed to the abstract payload. -/
structure ToolCallRequest (α : Type) where
  id : String
  name : String
  arguments : α
  deriving DecidableEq

/-- One entry of the `tool_outputs` list built by `main` (app.py):
`{"tool_call_id": ..., "output": ...}`. -/
structure ToolOutput where
  toolCallId : String
  output : String
  deriving DecidableEq

/-- The dispatch loop of `main` (app.py): for each requested tool call, in
the order the model emitted them, run `call_mcp_tool` under a try/except that
converts any raised exception `e` into the output
`"Error executing tool: " ++ e`, and record one output per call. -/
def dispatchToolCalls {α : Type} (tools : List (String × List ToolInfo)) (sessions : List String)
    (sessionCall : String → String → α → Except String (List String))
    (calls : List (ToolCallRequest α)) : List ToolOutput :=
  calls.map fun tc =>
    { toolCallId := tc.id
      output :=
        match callMcpTool tools sessions sessionCall tc.name tc.arguments with
        | .ok out => out
        | .error e => "Error executing tool: " ++ e }

/-- A conversation-history entry as appended by app.py: the system prompt,
a user message, an assistant message (content plus its `tool_calls` list from
`model_dump()`), or a `role: tool` message carrying a `tool_call_id`. -/
inductive HistMsg (α : Type) where
  | system (content : String)
  | user (content : String)
  | assistant (content : Option String) (toolCalls : List (ToolCallRequest α))
  | tool (toolCallId : String) (content : String)
  deriving DecidableEq

/-- A message surfaced to the user via `cl.Message(...).send()` in `main`:
the optional `author` keyword and the content. -/
structure SurfacedMsg where
  author : Option String
  content : Option String
  deriving DecidableEq

/-- The model's `response.choices[0].message`: optional text content and the
(possibly empty) list of requested tool calls. -/
structure ModelMessage (α : Type) where
  content : Option String
  toolCalls : List (ToolCallRequest α)
  deriving DecidableEq

/-- The history suffix and surfaced messages produced by the tool-call branch
of `main`: the direct post-processing loop sends one `cl.Message` per output,
with `author=tool_name` where `tool_name` is the loop variable left over from
the dispatch loop (the name of the LAST requested call), and appends one
`role: tool` history entry per output carrying its `tool_call_id`. -/
def directBranch {α : Type} (tools : List (String × List ToolInfo)) (sessions : List String)
    (sessionCall : String → String → α → Except String (List String))
    (tc0 : ToolCallRequest α) (tcs : List (ToolCallRequest α)) :
    List (HistMsg α) × List SurfacedMsg :=
  let outputs := dispatchToolCalls tools sessions sessionCall (tc0 :: tcs)
  let staleName := (tcs.getLastD tc0).name
  (outputs.map fun o => HistMsg.tool o.toolCallId o.output,
   outputs.map fun o => { author := some staleName, content := some o.output })

/-- One run of the `main` message handler (app.py) on an incoming user
message: append the user message, then branch on the model call result
(`.error` models an exception from the completion call, caught by the outer
try/except). Returns the new history and the messages surfaced to the user. -/
def mainStep {α : Type} (tools : List (String × List ToolInfo)) (sessions : List String)
    (sessionCall : String → String → α → Except String (List String))
    (history : List (HistMsg α)) (userContent : String)
    (modelResult : Except String (ModelMessage α)) : List (HistMsg α) × List SurfacedMsg :=
  let h1 := history ++ [HistMsg.user userContent]
  match modelResult with
  | .error e => (h1, [{ author := none, content := some ("An error occurred: " ++ e) }])
  | .ok rm =>
    match rm.toolCalls with
    | [] => (h1 ++ [HistMsg.assistant rm.content []], [{ author := none, content := rm.content }])
    | tc0 :: tcs =>
      let h2 := h1 ++ [HistMsg.assistant rm.content (tc0 :: tcs)]
      let br := directBranch tools sessions sessionCall tc0 tcs
      (h2 ++ br.1, br.2)

/-- The `role: tool` history entry that `main` appends for one requested
call: its `tool_call_id` and the output computed by the guarded dispatch. -/
def toolMessageFor {α : Type} (tools : List (String × List ToolInfo)) (sessions : List String)
    (sessionCall : String → String → α → Except String (List String))
    (tc : ToolCallRequest α) : HistMsg α :=
  HistMsg.tool tc.id
    (match callMcpTool tools sessions sessionCall tc.name tc.arguments with
     | .ok out => out
     | .error e => "Error executing tool: " ++ e)

/-
===== Embedding of src/mcp_postgres_server.py (the Query Gateway) =====
Gateway-side Python strings are modelled as `List Char`, so that Python's
`split`, `strip`, `upper` and f-string concatenation are plain list
operations. Apostrophes inside literals are written with the `\x27` escape.
-/

/-- Python `str.strip()` on both ends (whitespace). -/
def pyStrip (s : List Char) : List Char :=
  (((s.dropWhile Char.isWhitespace).reverse).dropWhile Char.isWhitespace).reverse

/-- Python `str.upper()` (ASCII case mapping suffices for the guards here). -/
def pyUpper (s : List Char) : List Char :=
  s.map Char.toUpper

/-- The spec's phrasing of the `execute_query` guard: the string begins,
case-insensitively, with `SELECT` (its first six characters upper-case to
`SELECT`). Proved below to coincide with the code's
`query.upper().startswith("SELECT")`. -/
def beginsWithSelectCI (s : List Char) : Prop :=
  pyUpper (s.take 6) = "SELECT".toList

instance (s : List Char) : Decidable (beginsWithSelectCI s) := by
  unfold beginsWithSelectCI
  infer_instance

/-- Python `str.startswith(pat)`. -/
def startsWithList : List Char → List Char → Bool
  | [], _ => true
  | _ :: _, [] => false
  | p :: ps, x :: xs => p == x && startsWithList ps xs

/-- Python `pat in s` for strings: `pat` occurs contiguously in `s`. -/
def containsSeq (pat : List Char) : List Char → Bool
  | [] => startsWithList pat []
  | x :: xs => startsWithList pat (x :: xs) || containsSeq pat xs

/-- Split at the first occurrence of `c` (Python `s.split(c, 1)` when `c`
occurs); `none` when `c` does not occur. -/
def splitAtFirst (c : Char) : List Char → Option (List Char × List Char)
  | [] => none
  | x :: xs =>
    if x = c then some ([], xs)
    else (splitAtFirst c xs).map (fun p => (x :: p.1, p.2))

/-- Python `s.split(c)` (split at every occurrence, keeping empty fields). -/
def splitOnChar (c : Char) : List Char → List (List Char)
  | [] => [[]]
  | x :: xs =>
    if x = c then [] :: splitOnChar c xs
    else
      match splitOnChar c xs with
      | [] => [[x]]
      | f :: rest => (x :: f) :: rest

/-- The schema/table parsing shared by `query_table` and `get_table_schema`
(mcp_postgres_server.py): `if '.' in table_name: schema, table =
table_name.split('.', 1) else: schema, table = 'public', table_name`. -/
def parseTableName (s : List Char) : List Char × List Char :=
  match splitAtFirst '.' s with
  | some p => p
  | none => ("public".toList, s)

/-- The password hiding of the `connect_db` result (mcp_postgres_server.py
line 112): `conn_string.split('@')[1] if '@' in conn_string else conn_string`. -/
def hideConnPassword (s : List Char) : List Char :=
  if '@' ∈ s then (splitOnChar '@' s).getD 1 [] else s

/-- Modelled from the spec: the allow-list character check the spec mandates
for `tableName` (alphanumeric, `.`, `_` only). The source of `query_table`
contains no such check; this predicate exists only to state its absence. -/
def specAllowListOk (s : List Char) : Bool :=
  s.all (fun c => c.isAlphanum || c == '.' || c == '_')

/-- A bound SQL parameter (`$1`, `$2`, ...): a string or an integer. -/
inductive SqlParam where
  | str (s : List Char)
  | int (i : Int)
  deriving DecidableEq

/-- A database-side effect performed while holding a pooled connection:
acquiring a connection from the pool, or issuing one SQL statement with its
bound parameters. Interpolated identifiers appear in the statement `text`;
bound values appear only in `params`. -/
inductive SqlEvent where
  | acquire
  | sql (text : List Char) (params : List SqlParam)
  deriving DecidableEq

/-- A result row, `dict(row)`: column name to rendered value. -/
abbrev Row := List (List Char × List Char)

/-- One row of the `information_schema.columns` query used by the gateway. -/
structure ColMeta where
  columnName : List Char
  dataType : List Char
  isNullable : List Char
  columnDefault : Option (List Char)
  charMaxLength : Option Nat
  deriving DecidableEq

/-- One row of the foreign-key catalog join used by `get_table_schema`. -/
structure FkMeta where
  columnName : List Char
  foreignTableSchema : List Char
  foreignTableName : List Char
  foreignColumnName : List Char
  deriving DecidableEq

/-- The database oracle: what the catalog and data queries of the gateway
would return on the connected database. -/
structure Db where
  hasTable : List Char → List Char → Bool
  columns : List Char → List Char → List ColMeta
  pkColumns : List Char → List Char → List (List Char)
  fkInfo : List Char → List Char → List FkMeta
  fetch : List Char → List Row

/-- A formatted column of the `get_table_schema` result. -/
structure ColInfo where
  name : List Char
  dtype : List Char
  nullable : Bool
  dflt : Option (List Char)
  maxLen : Option Nat
  isPk : Bool
  fk : Option (List Char × List Char)
  deriving DecidableEq

/-- The structured result dict of `_execute_postgres_command_async`:
`failure e` is `{'success': False, 'error': e}`; the other constructors are
the per-action success payloads. -/
inductive PgResult where
  | failure (error : List Char)
  | connectOk (version : List Char) (connectionString : List Char)
  | queryOk (table : List Char) (columns : List (List Char × List Char))
      (rowCount : Nat) (data : List Row)
  | execOk (rowCount : Nat) (data : List Row)
  | schemaOk (table : List Char) (columns : List ColInfo)
  deriving DecidableEq

/-- The shared `'Not connected to database. Please use connect_db first.'`. -/
def notConnectedMsg : List Char :=
  "Not connected to database. Please use connect_db first.".toList

/-- The parameterized existence check issued by `query_table` (text
normalized to one line; `schema` and `table` are bound as `$1`, `$2`). -/
def existsCheckSqlText : List Char :=
  "SELECT EXISTS (SELECT 1 FROM information_schema.tables WHERE table_schema = $1 AND table_name = $2)".toList

/-- The parameterized column query issued by `query_table`. -/
def columnsBriefSqlText : List Char :=
  "SELECT column_name, data_type FROM information_schema.columns WHERE table_schema = $1 AND table_name = $2 ORDER BY ordinal_position".toList

/-- The parameterized column query issued by `get_table_schema`. -/
def columnsFullSqlText : List Char :=
  "SELECT column_name, data_type, is_nullable, column_default, character_maximum_length FROM information_schema.columns WHERE table_schema = $1 AND table_name = $2 ORDER BY ordinal_position".toList

/-- The parameterized primary-key query issued by `get_table_schema`. -/
def pkSqlText : List Char :=
  "SELECT a.attname as column_name FROM pg_index i JOIN pg_attribute a ... WHERE n.nspname = $1 AND c.relname = $2 AND i.indisprimary".toList

/-- The parameterized foreign-key query issued by `get_table_schema`. -/
def fkSqlText : List Char :=
  "SELECT kcu.column_name, ccu.table_schema, ccu.table_name, ccu.column_name FROM information_schema.table_constraints ... WHERE tc.constraint_type = FK AND tc.table_schema = $1 AND tc.table_name = $2".toList

/-- The `query_table` action of `_execute_postgres_command_async`, paired
with the trace of pool/SQL events it performs: reject if not connected;
parse schema/table; issue the parameterized existence check; on miss return
`Table '<name>' not found`; otherwise fetch column info (parameterized) and
the data via the INTERPOLATED statement
`f'SELECT * FROM {schema}.{table} LIMIT $1 OFFSET $2'` with `limit`/`offset`
bound. No character validation of `table_name` is performed anywhere. -/
def queryTable (connected : Bool) (db : Db) (tableName : List Char)
    (limit offset : Int) : PgResult × List SqlEvent :=
  if !connected then (.failure notConnectedMsg, [])
  else
    let st := parseTableName tableName
    let checkEv := SqlEvent.sql existsCheckSqlText [.str st.1, .str st.2]
    if !(db.hasTable st.1 st.2) then
      (.failure ("Table \x27".toList ++ tableName ++ "\x27 not found".toList),
       [.acquire, checkEv])
    else
      let cols := (db.columns st.1 st.2).map (fun c => (c.columnName, c.dataType))
      let dataQuery :=
        "SELECT * FROM ".toList ++ st.1 ++ ".".toList ++ st.2 ++ " LIMIT $1 OFFSET $2".toList
      let rows := db.fetch dataQuery
      (.queryOk tableName cols rows.length rows,
       [.acquire, checkEv, .sql columnsBriefSqlText [.str st.1, .str st.2],
        .sql dataQuery [.int limit, .int offset]])

/-- The `execute_query` action of `_execute_postgres_command_async`, paired
with its event trace: reject if not connected; strip the query; reject with
`'Only SELECT queries are allowed for safety'` unless the upper-cased query
starts with `SELECT` (no connection is acquired on rejection); otherwise
acquire a connection and run the stripped query verbatim. -/
def executeQuery (connected : Bool) (db : Db) (rawQuery : List Char) :
    PgResult × List SqlEvent :=
  if !connected then (.failure notConnectedMsg, [])
  else
    let query := pyStrip rawQuery
    if !(startsWithList "SELECT".toList (pyUpper query)) then
      (.failure "Only SELECT queries are allowed for safety".toList, [])
    else
      let rows := db.fetch query
      (.execOk rows.length rows, [.acquire, .sql query []])

/-- The `get_table_schema` action of `_execute_postgres_command_async`,
paired with its event trace: parse schema/table the same way as
`query_table`, fetch column metadata (parameterized), return
`Table '<name>' not found` when no columns match, otherwise join in
primary-key membership and the foreign-key map (`fk_map` is a dict
comprehension, so for duplicate column names the LAST row wins). -/
def getTableSchema (connected : Bool) (db : Db) (tableName : List Char) :
    PgResult × List SqlEvent :=
  if !connected then (.failure notConnectedMsg, [])
  else
    let st := parseTableName tableName
    let cols := db.columns st.1 st.2
    let colsEv := SqlEvent.sql columnsFullSqlText [.str st.1, .str st.2]
    if cols.isEmpty then
      (.failure ("Table \x27".toList ++ tableName ++ "\x27 not found".toList),
       [.acquire, colsEv])
    else
      let pkNames := db.pkColumns st.1 st.2
      let fks := db.fkInfo st.1 st.2
      let formatted := cols.map fun c =>
        { name := c.columnName
          dtype := c.dataType
          nullable := c.isNullable == "YES".toList
          dflt := c.columnDefault
          maxLen := c.charMaxLength
          isPk := pkNames.contains c.columnName
          fk := ((fks.reverse.find? (fun fk => fk.columnName == c.columnName)).map
            (fun fk => (fk.foreignTableSchema ++ ".".toList ++ fk.foreignTableName,
                        fk.foreignColumnName))) : ColInfo }
      (.schemaOk tableName formatted,
       [.acquire, colsEv, .sql pkSqlText [.str st.1, .str st.2],
        .sql fkSqlText [.str st.1, .str st.2]])

/-- The environment variables read by `connect_db`; `none` models an unset
or empty (falsy) variable. -/
structure PgEnv where
  databaseUrl : Option (List Char)
  host : Option (List Char)
  port : Option (List Char)
  db : Option (List Char)
  user : Option (List Char)
  password : Option (List Char)

/-- The connection-string resolution of `connect_db`: explicit argument,
else `DATABASE_URL`, else assembled from discrete variables as
`f"postgresql://{user}:{password}@{host}:{port}/{db}"` when both `db` and
`user` are set (an unset password renders as Python's `"None"`). -/
def resolveConnString (env : PgEnv) (arg : Option (List Char)) : Option (List Char) :=
  match arg with
  | some c => some c
  | none =>
    match env.databaseUrl with
    | some c => some c
    | none =>
      match env.db, env.user with
      | some dbName, some user =>
        some ("postgresql://".toList ++ user ++ ":".toList ++
          (env.password.getD "None".toList) ++ "@".toList ++
          (env.host.getD "localhost".toList) ++ ":".toList ++
          (env.port.getD "5432".toList) ++ "/".toList ++ dbName)
      | _, _ => none

/-- The `connect_db` action: resolve the connection string (failing with the
exact source message if none resolves), create the pool (`createPool` is the
oracle for `asyncpg.create_pool` + the version probe; `.error` models a
raised exception caught by the outer handler, whose `str(e)` becomes the
error field), and on success return the version and the connection string
with the password hidden via `hideConnPassword`. -/
def connectDb (env : PgEnv) (arg : Option (List Char))
    (createPool : List Char → Except (List Char) (List Char)) : PgResult :=
  match resolveConnString env arg with
  | none => .failure "No connection string provided and no DATABASE_URL in environment".toList
  | some conn =>
    match createPool conn with
    | .error e => .failure e
    | .ok version => .connectOk version (hideConnPassword conn)

/-- The user-surfaced text built by `handle_call_tool` for the
`connect_postgres` tool (markdown and emoji normalized away): the success
text embeds the result's `connection_string` and `version` verbatim; the
failure text embeds the error. -/
def connectSurfacedText : PgResult → List Char
  | .connectOk version connStr =>
    "PostgreSQL Connection Successful! Connected to: ".toList ++ connStr ++
      " Server Version: ".toList ++ version
  | .failure e => "Connection Failed. Error: ".toList ++ e
  | _ => []

/- ===== Helper lemmas ===== -/

lemma dictDrop_of_not_mem {β : Type} (k : String) (l : List (String × β))
    (h : k ∉ dictKeys l) : dictDrop k l = l := by
  induction l with
  | nil => rfl
  | cons hd tl ih =>
    obtain ⟨k0, v0⟩ := hd
    simp only [dictKeys, List.map_cons, List.mem_cons, not_or] at h
    show (if k0 = k then tl else (k0, v0) :: dictDrop k tl) = (k0, v0) :: tl
    rw [if_neg (fun e => h.1 e.symm), ih (by simpa [dictKeys] using h.2)]

lemma findMcpForTool_eq_none_of_fresh (l : List (String × List ToolInfo)) (n : String)
    (h : ∀ e ∈ l, ∀ t ∈ e.2, t.name ≠ n) : findMcpForTool l n = none := by
  induction l with
  | nil => rfl
  | cons hd tl ih =>
    obtain ⟨k, ts⟩ := hd
    have hts : ts.any (fun t => t.name == n) = false := by
      rw [List.any_eq_false]
      intro t ht
      simpa using h (k, ts) (by simp) t ht
    simp only [findMcpForTool, hts, Bool.false_eq_true, if_false]
    exact ih (fun e he t ht => h e (List.mem_cons_of_mem _ he) t ht)

lemma findMcpForTool_dictSet_self (R : List (String × List ToolInfo)) (p : String)
    (d : ToolInfo)
    (hfresh : ∀ e ∈ R, e.1 ≠ p → ∀ t ∈ e.2, t.name ≠ d.name) :
    findMcpForTool (dictSet p [d] R) d.name = some p := by
  induction R with
  | nil => simp [dictSet, findMcpForTool]
  | cons hd tl ih =>
    obtain ⟨k, ts⟩ := hd
    by_cases hk : k = p
    · subst hk
      simp [dictSet, findMcpForTool]
    · have hts : ts.any (fun t => t.name == d.name) = false := by
        rw [List.any_eq_false]
        intro t ht
        simpa using hfresh (k, ts) (by simp) hk t ht
      simp only [dictSet, if_neg hk, findMcpForTool, hts, Bool.false_eq_true, if_false]
      exact ih (fun e he hne t ht => hfresh e (List.mem_cons_of_mem _ he) hne t ht)

lemma dictDrop_dictSet {β : Type} (p : String) (v : β) (R : List (String × β)) :
    dictDrop p (dictSet p v R) = dictDrop p R := by
  induction R with
  | nil => simp [dictSet, dictDrop]
  | cons hd tl ih =>
    obtain ⟨k, ts⟩ := hd
    by_cases hk : k = p
    · subst hk
      simp [dictSet, dictDrop]
    · simp only [dictSet, if_neg hk, dictDrop, ih]

lemma mem_dictDrop {β : Type} (k : String) (l : List (String × β))
    (hnodup : (dictKeys l).Nodup) (e : String × β) (he : e ∈ dictDrop k l) :
    e ∈ l ∧ e.1 ≠ k := by
  induction l with
  | nil => simp [dictDrop] at he
  | cons hd tl ih =>
    obtain ⟨k0, v0⟩ := hd
    simp only [dictKeys, List.map_cons, List.nodup_cons] at hnodup
    by_cases hk : k0 = k
    · subst hk
      simp only [dictDrop, if_pos rfl] at he
      refine ⟨List.mem_cons_of_mem _ he, fun hek => ?_⟩
      exact hnodup.1 (hek ▸ List.mem_map_of_mem Prod.fst he)
    · simp only [dictDrop, if_neg hk] at he
      rcases List.mem_cons.mp he with he | he
      · subst he
        exact ⟨List.mem_cons_self _ _, fun h => hk h⟩
      · obtain ⟨h1, h2⟩ := ih (by simpa [dictKeys] using hnodup.2) he
        exact ⟨List.mem_cons_of_mem _ h1, h2⟩

/- ===== Claim theorems: orchestration layer (src/app.py) ===== -/

/-- Claim C7: the `main` handler only appends to the conversation history:
its output history is the input history, unchanged, followed by the handled
user message and then the turn's new entries; no existing entry is
rewritten, reordered or deleted. Holds for every model outcome (text reply,
tool-call batch, or a failed model call) and every tool behavior. -/
theorem mainStep_appends_only {α : Type} (tools : List (String × List ToolInfo))
    (sessions : List String)
    (sessionCall : String → String → α → Except String (List String))
    (history : List (HistMsg α)) (u : String)
    (modelResult : Except String (ModelMessage α)) :
    ∃ rest : List (HistMsg α),
      (mainStep tools sessions sessionCall history u modelResult).1 =
        history ++ HistMsg.user u :: rest := by
  cases modelResult with
  | error e => exact ⟨[], by simp [mainStep]⟩
  | ok rm =>
    cases h : rm.toolCalls with
    | nil => exact ⟨[HistMsg.assistant rm.content []], by simp [mainStep, h]⟩
    | cons tc0 tcs =>
      refine ⟨HistMsg.assistant rm.content (tc0 :: tcs) ::
        (directBranch tools sessions sessionCall tc0 tcs).1, ?_⟩
      simp [mainStep, h]

/-- Claim C9: disconnecting a provider that was never registered is a no-op
on the orchestration state: `on_mcp_disconnect` does not raise (it is a
total function of the state) and leaves `mcp_tools`, `mcp_sessions` and the
user-session tool map unchanged. -/
theorem disconnect_unknown_provider_noop (s : AppState) (name : String)
    (h1 : name ∉ dictKeys s.mcpTools) (h2 : name ∉ s.mcpSessions)
    (h3 : name ∉ dictKeys s.userMcpTools) :
    onMcpDisconnect name s = s := by
  unfold onMcpDisconnect
  rw [dictDrop_of_not_mem _ _ h1, dictDrop_of_not_mem _ _ h3,
    List.erase_of_not_mem h2]

/-- Witness for C9: disconnecting the never-registered provider `ghost`
leaves a concrete one-provider state unchanged. -/
theorem disconnect_unknown_provider_noop_witness :
    onMcpDisconnect "ghost"
        ⟨[("pg", [⟨"query_postgres_table", "q"⟩])], ["pg"],
         [("pg", [⟨"query_postgres_table", "q"⟩])]⟩ =
      ⟨[("pg", [⟨"query_postgres_table", "q"⟩])], ["pg"],
       [("pg", [⟨"query_postgres_table", "q"⟩])]⟩ :=
  disconnect_unknown_provider_noop _ "ghost" (by decide) (by decide) (by decide)

/-- Claim C6: with distinct provider names and no other provider exposing a
tool named `d.name` (name collisions are a configuration error per the
spec), `find_mcp_for_tool d.name` returns `p` right after
`mcp_tools[p] = [d]`, and returns `None` after `p` is subsequently deleted. -/
theorem resolve_register_unregister (R : List (String × List ToolInfo))
    (p : String) (d : ToolInfo) (hnodup : (dictKeys R).Nodup)
    (hfresh : ∀ e ∈ R, e.1 ≠ p → ∀ t ∈ e.2, t.name ≠ d.name) :
    findMcpForTool (dictSet p [d] R) d.name = some p ∧
    findMcpForTool (dictDrop p (dictSet p [d] R)) d.name = none := by
  refine ⟨findMcpForTool_dictSet_self R p d hfresh, ?_⟩
  rw [dictDrop_dictSet]
  refine findMcpForTool_eq_none_of_fresh _ _ (fun e he t ht => ?_)
  obtain ⟨hmem, hne⟩ := mem_dictDrop p R hnodup e he
  exact hfresh e hmem hne t ht

/-- Witness for C6: registering provider `pg` with tool `foo` next to an
unrelated provider resolves `foo` to `pg`, and unregistering `pg` makes
`foo` unresolvable. -/
theorem resolve_register_unregister_witness :
    findMcpForTool (dictSet "pg" [⟨"foo", "f"⟩] [("other", [⟨"bar", "b"⟩])]) "foo" =
      some "pg" ∧
    findMcpForTool (dictDrop "pg" (dictSet "pg" [⟨"foo", "f"⟩]
      [("other", [⟨"bar", "b"⟩])])) "foo" = none :=
  resolve_register_unregister [("other", [⟨"bar", "b"⟩])] "pg" ⟨"foo", "f"⟩
    (by decide) (by decide)

/-- Claim C2: for a model response carrying a non-empty batch of tool-call
requests, `main` appends to the history (after the user and assistant
entries) exactly one `role: tool` message per request, in request order,
each carrying the matching `tool_call_id` (`toolMessageFor tc` is a
`HistMsg.tool tc.id _`). This holds for every session-call oracle, in
particular when some calls raise: a per-call error never aborts the
siblings. -/
theorem dispatch_appends_exact_tool_messages {α : Type}
    (tools : List (String × List ToolInfo)) (sessions : List String)
    (sessionCall : String → String → α → Except String (List String))
    (history : List (HistMsg α)) (u : String) (rm : ModelMessage α)
    (hne : rm.toolCalls ≠ []) :
    (mainStep tools sessions sessionCall history u (.ok rm)).1 =
      history ++ [HistMsg.user u, HistMsg.assistant rm.content rm.toolCalls] ++
        rm.toolCalls.map (toolMessageFor tools sessions sessionCall) ∧
    (rm.toolCalls.map (toolMessageFor tools sessions sessionCall)).length =
      rm.toolCalls.length := by
  refine ⟨?_, by simp⟩
  cases h : rm.toolCalls with
  | nil => exact absurd h hne
  | cons tc0 tcs =>
    simp only [mainStep, h, directBranch, dispatchToolCalls, List.map_map,
      List.append_assoc]
    rfl

/-- Witness for C2: a concrete two-call batch in which the first call's
provider raises and the second call's tool has no provider still yields
exactly two `role: tool` history entries, in order, with matching ids. -/
theorem dispatch_appends_exact_tool_messages_witness :
    (mainStep [("m", [⟨"foo", "f"⟩])] ["m"]
        (fun _ t (_ : Unit) => if t == "foo" then Except.error "boom" else Except.ok ["ok"])
        [] "hi" (.ok ⟨none, [⟨"1", "foo", ()⟩, ⟨"2", "bar", ()⟩]⟩)).1 =
      [] ++ [HistMsg.user "hi",
        HistMsg.assistant none [⟨"1", "foo", ()⟩, ⟨"2", "bar", ()⟩]] ++
        ([⟨"1", "foo", ()⟩, ⟨"2", "bar", ()⟩] : List (ToolCallRequest Unit)).map
          (toolMessageFor [("m", [⟨"foo", "f"⟩])] ["m"]
            (fun _ t (_ : Unit) => if t == "foo" then Except.error "boom" else Except.ok ["ok"])) ∧
    (([⟨"1", "foo", ()⟩, ⟨"2", "bar", ()⟩] : List (ToolCallRequest Unit)).map
        (toolMessageFor [("m", [⟨"foo", "f"⟩])] ["m"]
          (fun _ t (_ : Unit) => if t == "foo" then Except.error "boom" else Except.ok ["ok"]))).length =
      ([⟨"1", "foo", ()⟩, ⟨"2", "bar", ()⟩] : List (ToolCallRequest Unit)).length :=
  dispatch_appends_exact_tool_messages _ _ _ [] "hi"
    ⟨none, [⟨"1", "foo", ()⟩, ⟨"2", "bar", ()⟩]⟩ (by simp)

/-- Claim C4 is a code bug: under the direct policy `main` surfaces one
message per tool call, but `author=tool_name` reuses the dispatch loop's
variable, which after that loop holds the LAST request's tool name. For the
concrete batch `[foo, bar]` (both resolved and succeeding) both surfaced
messages are tagged `bar`; the claim expects `[foo, bar]`. -/
theorem direct_surfacing_uses_stale_tool_name :
    ((mainStep [("m", [⟨"foo", "f"⟩, ⟨"bar", "b"⟩])] ["m"]
        (fun _ _ (_ : Unit) => Except.ok ["done"]) [] "u"
        (.ok ⟨none, [⟨"1", "foo", ()⟩, ⟨"2", "bar", ()⟩]⟩)).2).map SurfacedMsg.author =
      [some "bar", some "bar"] ∧
    ((mainStep [("m", [⟨"foo", "f"⟩, ⟨"bar", "b"⟩])] ["m"]
        (fun _ _ (_ : Unit) => Except.ok ["done"]) [] "u"
        (.ok ⟨none, [⟨"1", "foo", ()⟩, ⟨"2", "bar", ()⟩]⟩)).2).map SurfacedMsg.author ≠
      [some "foo", some "bar"] := by
  constructor
  · rfl
  · decide

/-- Counterexample to claim C5 as stated: a call whose tool resolves to no
provider is recorded with output
`"Error executing tool: No MCP connection found for tool: foo"` — the
raised `ValueError` text wrapped by the catch-all — not the claimed message
`"No provider for tool foo"`. -/
theorem unresolved_tool_message_counterexample :
    (dispatchToolCalls (α := Unit) [] [] (fun _ _ _ => .error "unused")
        [⟨"1", "foo", ()⟩]).map ToolOutput.output =
      ["Error executing tool: No MCP connection found for tool: foo"] ∧
    ("Error executing tool: No MCP connection found for tool: foo" : String) ≠
      "No provider for tool foo" := by
  constructor
  · rfl
  · decide

/-- Claim C5 amended: a request whose tool name resolves to no provider is
recorded as a failure output whose message is
`"Error executing tool: No MCP connection found for tool: <name>"`, and the
batch is not aborted: the output list still has one entry per request. -/
theorem unresolved_tool_failure_continues {α : Type}
    (tools : List (String × List ToolInfo)) (sessions : List String)
    (sessionCall : String → String → α → Except String (List String))
    (calls : List (ToolCallRequest α)) (i : Nat) (tc : ToolCallRequest α)
    (hi : calls[i]? = some tc)
    (hnone : findMcpForTool tools tc.name = none) :
    (dispatchToolCalls tools sessions sessionCall calls).length = calls.length ∧
    (dispatchToolCalls tools sessions sessionCall calls)[i]? =
      some ⟨tc.id, "Error executing tool: " ++
        ("No MCP connection found for tool: " ++ tc.name)⟩ := by
  refine ⟨by simp [dispatchToolCalls], ?_⟩
  simp only [dispatchToolCalls, List.getElem?_map, hi, Option.map_some]
  simp [callMcpTool, hnone]

/-- Witness for C5 (amended): in a concrete batch `[foo, bar]` where only
`bar` has a provider, the `foo` entry carries the source's error message and
both entries are present. -/
theorem unresolved_tool_failure_continues_witness :
    (dispatchToolCalls [("m", [⟨"bar", "b"⟩])] ["m"]
        (fun _ _ (_ : Unit) => Except.ok ["ok"])
        [⟨"1", "foo", ()⟩, ⟨"2", "bar", ()⟩]).length =
      ([⟨"1", "foo", ()⟩, ⟨"2", "bar", ()⟩] : List (ToolCallRequest Unit)).length ∧
    (dispatchToolCalls [("m", [⟨"bar", "b"⟩])] ["m"]
        (fun _ _ (_ : Unit) => Except.ok ["ok"])
        [⟨"1", "foo", ()⟩, ⟨"2", "bar", ()⟩])[0]? =
      some ⟨"1", "Error executing tool: " ++
        ("No MCP connection found for tool: " ++ "foo")⟩ :=
  unresolved_tool_failure_continues [("m", [⟨"bar", "b"⟩])] ["m"]
    (fun _ _ (_ : Unit) => Except.ok ["ok"])
    [⟨"1", "foo", ()⟩, ⟨"2", "bar", ()⟩] 0 ⟨"1", "foo", ()⟩ rfl rfl

/- ===== Helper lemmas: gateway string functions ===== -/

lemma startsWithList_iff_take (pat : List Char) :
    ∀ l : List Char, startsWithList pat l = true ↔ l.take pat.length = pat := by
  induction pat with
  | nil => intro l; simp [startsWithList]
  | cons p ps ih =>
    intro l
    cases l with
    | nil => simp [startsWithList]
    | cons x xs =>
      simp [startsWithList, List.take_succ_cons, ih xs, eq_comm (a := p) (b := x)]

lemma splitAtFirst_eq_none_of_not_mem (c : Char) (l : List Char) (h : c ∉ l) :
    splitAtFirst c l = none := by
  induction l with
  | nil => rfl
  | cons x xs ih =>
    simp only [List.mem_cons, not_or] at h
    have hx : ¬ x = c := fun e => h.1 e.symm
    simp [splitAtFirst, hx, ih h.2]

lemma splitAtFirst_append_of_not_mem (c : Char) (a b : List Char) (h : c ∉ a) :
    splitAtFirst c (a ++ c :: b) = some (a, b) := by
  induction a with
  | nil => simp [splitAtFirst]
  | cons x xs ih =>
    simp only [List.mem_cons, not_or] at h
    have hx : ¬ x = c := fun e => h.1 e.symm
    simp [splitAtFirst, hx, ih h.2]

lemma splitOnChar_of_not_mem (c : Char) (l : List Char) (h : c ∉ l) :
    splitOnChar c l = [l] := by
  induction l with
  | nil => rfl
  | cons x xs ih =>
    simp only [List.mem_cons, not_or] at h
    have hx : ¬ x = c := fun e => h.1 e.symm
    simp [splitOnChar, hx, ih h.2]

lemma splitOnChar_ne_nil (c : Char) (l : List Char) : splitOnChar c l ≠ [] := by
  cases l with
  | nil => simp [splitOnChar]
  | cons x xs =>
    by_cases hx : x = c
    · simp [splitOnChar, hx]
    · simp only [splitOnChar, if_neg hx]
      cases h : splitOnChar c xs <;> simp

lemma splitOnChar_append (c : Char) (a b : List Char) (h : c ∉ a) :
    splitOnChar c (a ++ c :: b) = a :: splitOnChar c b := by
  induction a with
  | nil => simp [splitOnChar]
  | cons x xs ih =>
    simp only [List.mem_cons, not_or] at h
    have hx : ¬ x = c := fun e => h.1 e.symm
    show (if x = c then [] :: splitOnChar c (xs ++ c :: b)
        else
          match splitOnChar c (xs ++ c :: b) with
          | [] => [[x]]
          | f :: rest => (x :: f) :: rest) = (x :: xs) :: splitOnChar c b
    rw [if_neg hx, ih h.2]

lemma queryTable_check_event (db : Db) (tn : List Char) (lim off : Int) :
    (queryTable true db tn lim off).2.getD 1 .acquire =
      .sql existsCheckSqlText [.str (parseTableName tn).1, .str (parseTableName tn).2] := by
  unfold queryTable
  cases hdb : db.hasTable (parseTableName tn).1 (parseTableName tn).2 <;>
    simp [hdb, List.getD]

lemma getTableSchema_cols_event (db : Db) (tn : List Char) :
    (getTableSchema true db tn).2.getD 1 .acquire =
      .sql columnsFullSqlText [.str (parseTableName tn).1, .str (parseTableName tn).2] := by
  unfold getTableSchema
  cases hc : (db.columns (parseTableName tn).1 (parseTableName tn).2).isEmpty <;>
    simp [hc, List.getD]

/- ===== Claim theorems: Query Gateway (src/mcp_postgres_server.py) ===== -/

/-- Claim C3: `execute_query` rejects the query with
`'Only SELECT queries are allowed for safety'` — acquiring no connection and
issuing no SQL (empty event trace) — unless the stripped query begins,
case-insensitively, with `SELECT`; when it does, the stripped query is
executed after one pool acquisition. The spec-side prefix predicate
`beginsWithSelectCI` coincides with the code's
`query.upper().startswith("SELECT")`. -/
theorem executeQuery_select_guard (db : Db) (q : List Char) :
    (¬ beginsWithSelectCI (pyStrip q) →
      executeQuery true db q =
        (.failure "Only SELECT queries are allowed for safety".toList, [])) ∧
    (beginsWithSelectCI (pyStrip q) →
      executeQuery true db q =
        (.execOk (db.fetch (pyStrip q)).length (db.fetch (pyStrip q)),
         [.acquire, .sql (pyStrip q) []])) := by
  have hiff : beginsWithSelectCI (pyStrip q) ↔
      startsWithList "SELECT".toList (pyUpper (pyStrip q)) = true := by
    rw [startsWithList_iff_take]
    unfold beginsWithSelectCI pyUpper
    rw [← List.map_take]
    constructor <;> intro h <;> simpa using h
  constructor
  · intro h
    have hb : startsWithList "SELECT".toList (pyUpper (pyStrip q)) = false := by
      cases hsw : startsWithList "SELECT".toList (pyUpper (pyStrip q)) with
      | true => exact absurd (hiff.mpr hsw) h
      | false => rfl
    simp only [executeQuery, Bool.not_true, Bool.false_eq_true, if_false, hb,
      Bool.not_false, if_true]
  · intro h
    simp only [executeQuery, Bool.not_true, Bool.false_eq_true, if_false,
      hiff.mp h, Bool.not_true]

/-- Witness for C3: against a concrete empty database,
`execute_query("DELETE FROM t")` is rejected with an empty event trace and
`execute_query("SELECT 1")` acquires a connection and runs the query. -/
theorem executeQuery_select_guard_witness :
    executeQuery true
        ⟨fun _ _ => false, fun _ _ => [], fun _ _ => [], fun _ _ => [], fun _ => []⟩
        "DELETE FROM t".toList =
      (.failure "Only SELECT queries are allowed for safety".toList, []) ∧
    executeQuery true
        ⟨fun _ _ => false, fun _ _ => [], fun _ _ => [], fun _ _ => [], fun _ => []⟩
        "SELECT 1".toList =
      (.execOk
        ((⟨fun _ _ => false, fun _ _ => [], fun _ _ => [], fun _ _ => [], fun _ => []⟩ :
            Db).fetch (pyStrip "SELECT 1".toList)).length
        ((⟨fun _ _ => false, fun _ _ => [], fun _ _ => [], fun _ _ => [], fun _ => []⟩ :
            Db).fetch (pyStrip "SELECT 1".toList)),
       [.acquire, .sql (pyStrip "SELECT 1".toList) []]) :=
  ⟨(executeQuery_select_guard _ "DELETE FROM t".toList).1 (by decide),
   (executeQuery_select_guard _ "SELECT 1".toList).2 (by decide)⟩

/-- Claim C10: in both `query_table` and `get_table_schema`, a table name
with no `.` gets schema `public` and the whole name as table; a name with a
`.` is split at the first `.` into schema and table — and the catalog query
each operation issues (event index 1, right after the pool acquisition) is
parameterized with exactly that schema/table pair. -/
theorem table_name_schema_split (db : Db) (lim off : Int) (name a b : List Char)
    (h1 : '.' ∉ name) (h2 : '.' ∉ a) :
    parseTableName name = ("public".toList, name) ∧
    parseTableName (a ++ '.' :: b) = (a, b) ∧
    (queryTable true db name lim off).2.getD 1 .acquire =
      .sql existsCheckSqlText [.str "public".toList, .str name] ∧
    (getTableSchema true db (a ++ '.' :: b)).2.getD 1 .acquire =
      .sql columnsFullSqlText [.str a, .str b] := by
  have hp1 : parseTableName name = ("public".toList, name) := by
    simp [parseTableName, splitAtFirst_eq_none_of_not_mem _ _ h1]
  have hp2 : parseTableName (a ++ '.' :: b) = (a, b) := by
    simp [parseTableName, splitAtFirst_append_of_not_mem _ _ _ h2]
  refine ⟨hp1, hp2, ?_, ?_⟩
  · rw [queryTable_check_event, hp1]
  · rw [getTableSchema_cols_event, hp2]

/-- Witness for C10: `users` parses as `public`/`users` and `sales.orders`
as `sales`/`orders`, with the corresponding catalog-query parameters. -/
theorem table_name_schema_split_witness :
    parseTableName "users".toList = ("public".toList, "users".toList) ∧
    parseTableName ("sales".toList ++ '.' :: "orders".toList) =
      ("sales".toList, "orders".toList) ∧
    (queryTable true
        ⟨fun _ _ => false, fun _ _ => [], fun _ _ => [], fun _ _ => [], fun _ => []⟩
        "users".toList 5 0).2.getD 1 .acquire =
      .sql existsCheckSqlText [.str "public".toList, .str "users".toList] ∧
    (getTableSchema true
        ⟨fun _ _ => false, fun _ _ => [], fun _ _ => [], fun _ _ => [], fun _ => []⟩
        ("sales".toList ++ '.' :: "orders".toList)).2.getD 1 .acquire =
      .sql columnsFullSqlText [.str "sales".toList, .str "orders".toList] :=
  table_name_schema_split _ 5 0 "users".toList "sales".toList "orders".toList
    (by decide) (by decide)

/-- Claim C1 is a code bug: `query_table` performs NO allow-list character
check on `table_name` (despite the source comment `using quote_ident for
safety`, no sanitizer exists). For `tableName = "users; DROP TABLE users"`
(which fails the spec's allow-list): (1) the allow-list rejects it; (2) if
the catalog lists a table of that literal name, the raw name is interpolated
into the issued data statement, which contains `; DROP TABLE users`; (3) on
a database without such a table the call does fail with `not found`, but
only AFTER a catalog SQL query was issued — not "before any SQL". -/
theorem queryTable_interpolates_without_allowlist_check :
    specAllowListOk "users; DROP TABLE users".toList = false ∧
    (queryTable true
        ⟨fun s t => s == "public".toList && t == "users; DROP TABLE users".toList,
         fun _ _ => [], fun _ _ => [], fun _ _ => [], fun _ => []⟩
        "users; DROP TABLE users".toList 100 0).2 =
      [.acquire,
       .sql existsCheckSqlText
         [.str "public".toList, .str "users; DROP TABLE users".toList],
       .sql columnsBriefSqlText
         [.str "public".toList, .str "users; DROP TABLE users".toList],
       .sql "SELECT * FROM public.users; DROP TABLE users LIMIT $1 OFFSET $2".toList
         [.int 100, .int 0]] ∧
    containsSeq "; DROP TABLE users".toList
      "SELECT * FROM public.users; DROP TABLE users LIMIT $1 OFFSET $2".toList = true ∧
    queryTable true
        ⟨fun _ _ => false, fun _ _ => [], fun _ _ => [], fun _ _ => [], fun _ => []⟩
        "users; DROP TABLE users".toList 100 0 =
      (.failure "Table \x27users; DROP TABLE users\x27 not found".toList,
       [.acquire,
        .sql existsCheckSqlText
          [.str "public".toList, .str "users; DROP TABLE users".toList]]) := by
  refine ⟨by decide, by decide, by decide, by decide⟩

/-- Counterexample to claim C8 as stated: password hiding in `connect_db` is
`conn_string.split('@')[1] if '@' in conn_string else conn_string`, so a
valid `postgresql://host:port/db?user=u&password=...` URI — which contains
no `@` — is surfaced VERBATIM on a successful connect, password included. -/
theorem connect_surfaces_password_counterexample :
    connectDb ⟨none, none, none, none, none, none⟩
        (some "postgresql://dbhost:5432/mydb?user=admin&password=secret".toList)
        (fun _ => .ok "PostgreSQL 16.0".toList) =
      .connectOk "PostgreSQL 16.0".toList
        "postgresql://dbhost:5432/mydb?user=admin&password=secret".toList ∧
    containsSeq "secret".toList
      (connectSurfacedText (connectDb ⟨none, none, none, none, none, none⟩
        (some "postgresql://dbhost:5432/mydb?user=admin&password=secret".toList)
        (fun _ => .ok "PostgreSQL 16.0".toList))) = true := by
  refine ⟨by decide, by decide⟩

/-- Claim C8 amended: only for connection strings in the URL form
`<user:password part>@<host part>` with exactly one `@` (no `@` inside
either part) does a successful `connect_db` surface just the host part, the
credential part before the `@` being removed; a connection string without
`@` is surfaced verbatim, so credentials embedded there are not removed. -/
theorem connect_hides_password_url_form (env : PgEnv) (ver a b : List Char)
    (cp : List Char → Except (List Char) (List Char))
    (ha : '@' ∉ a) (hb : '@' ∉ b) (hcp : cp (a ++ '@' :: b) = .ok ver) :
    connectDb env (some (a ++ '@' :: b)) cp = .connectOk ver b ∧
    ∀ s : List Char, '@' ∉ s → hideConnPassword s = s := by
  constructor
  · have hhide : hideConnPassword (a ++ '@' :: b) = b := by
      unfold hideConnPassword
      rw [if_pos (by simp), splitOnChar_append _ _ _ ha,
        splitOnChar_of_not_mem _ _ hb]
      rfl
    simp only [connectDb, resolveConnString, hcp, hhide]
  · intro s hs
    unfold hideConnPassword
    rw [if_neg hs]

/-- Witness for C8 (amended): the standard URL form with the password
`hunter2` before the `@` surfaces only `dbhost:5432/mydb`. -/
theorem connect_hides_password_url_form_witness :
    connectDb ⟨none, none, none, none, none, none⟩
        (some ("postgresql://admin:hunter2".toList ++ '@' :: "dbhost:5432/mydb".toList))
        (fun _ => .ok "v".toList) =
      .connectOk "v".toList "dbhost:5432/mydb".toList ∧
    ∀ s : List Char, '@' ∉ s → hideConnPassword s = s :=
  connect_hides_password_url_form ⟨none, none, none, none, none, none⟩
    "v".toList "postgresql://admin:hunter2".toList "dbhost:5432/mydb".toList
    (fun _ => .ok "v".toList) (by decide) (by decide) rfl

end ChatbotDataCatalog
